import Mathlib

/-!
Verification of the figure-caption extraction pipeline in `functions.py`
(`xml_parser` repository).

The development shallowly embeds the program:

* text is modelled as `List Char` (Python `str`);
* the three cleaning stages of `clean_text` (`simple_clean_text`,
  `clean_latex_text`, `clean_spacy_text`) are embedded as executable
  functions, with `re.sub` scans rendered as fuel-based left-to-right
  scans (the fuel is always instantiated with the string length, which
  is an upper bound on the number of scan steps, so the fuel-exhausted
  branch is never taken);
* the parsed XML document of `grab_figure_data` is a rose tree `Node`;
  BeautifulSoup traversals (`find_all`, `find`, `find_parent`,
  `find_next_sibling`, `get_text`) are embedded over that tree;
* the sentence loop of `grab_spacy_text` and the merge loop of
  `combine_dataframes` are embedded over lists of rows.
-/

abbrev Text := List Char

/-- The whitespace characters of Python's `str` type: the set matched by
`\s` in a `re` pattern over `str` and stripped by `str.strip()`. -/
def pyWhitespace (c : Char) : Bool :=
  let n := c.toNat
  n == 0x20 || n == 0x09 || n == 0x0a || n == 0x0d || n == 0x0b || n == 0x0c ||
  (0x1c ≤ n && n ≤ 0x1f) || n == 0x85 || n == 0xa0 || n == 0x1680 ||
  (0x2000 ≤ n && n ≤ 0x200a) || n == 0x2028 || n == 0x2029 || n == 0x202f ||
  n == 0x205f || n == 0x3000

/-- The character class of the pattern at functions.py line 414,
`[^\S\t]`: whitespace other than the tab character. -/
def isWnt (c : Char) : Bool := pyWhitespace c && !(c == '\t')

/-- Python `str.strip()` with no argument: remove leading and trailing
whitespace. -/
def pyStrip (s : Text) : Text :=
  ((s.dropWhile pyWhitespace).reverse.dropWhile pyWhitespace).reverse

/-- The non-breaking-space character replaced by
`str(text).replace('\xa0', ' ')` at functions.py line 413. -/
def nbsp : Char := Char.ofNat 0xa0

/-- functions.py line 413: `text.replace('\xa0', ' ')`.  The replaced
pattern is a single character, so the replacement acts pointwise. -/
def replaceNbsp (s : Text) : Text :=
  s.map (fun c => if c == nbsp then ' ' else c)

/-- functions.py line 414: `re.sub(r'[^\S\t]+', ' ', text)` — replace
each maximal run of non-tab whitespace by a single space.  Rendered as a
left-to-right scan with one character of lookahead: a character of the
class that is followed by another one is dropped (it is not the last of
its run), and the last character of each run is emitted as `' '`. -/
def collapseWs : Text → Text
  | [] => []
  | [c] => if isWnt c then [' '] else [c]
  | c₁ :: c₂ :: rest =>
    if isWnt c₁ && isWnt c₂ then collapseWs (c₂ :: rest)
    else (if isWnt c₁ then ' ' else c₁) :: collapseWs (c₂ :: rest)

/-- The first cleaning stage, `simple_clean_text` (functions.py lines
412-415): replace `\xa0` by a space, collapse non-tab whitespace runs,
then `strip()`. -/
def simple_clean_text (s : Text) : Text :=
  pyStrip (collapseWs (replaceNbsp s))

/-! ### The second cleaning stage, `clean_latex_text` (functions.py lines 417-420)

Line 418 removes LaTeX-style commands:
`re.sub(r'\\(?:documentclass\[[^\]]*\]\{[^\}]*\}|usepackage\{[^\}]*\}|setlength\{[^\}]*\}|begin\{[^\}]*\}|end\{[^\}]*\}|[a-zA-Z]+\{[^\}]*\})', '', text)`.
Line 419 is `re.sub(r'(\$[^\$]*\$|\\\([^\)]*\\\))', lambda m: m.group(0), text)`:
each math-span match is replaced by itself.  Both substitutions are
embedded as a matcher returning the length of the regex match at the
start of the input, plus a left-to-right scan (Python `re.sub`
semantics: leftmost non-overlapping matches, scanning resumes after
each match). -/

/-- The class `[a-zA-Z]`. -/
def isAsciiLetter (c : Char) : Bool :=
  (0x41 ≤ c.toNat && c.toNat ≤ 0x5a) || (0x61 ≤ c.toNat && c.toNat ≤ 0x7a)

/-- Left brace character (written via its code point). -/
def lbrace : Char := Char.ofNat 0x7b

/-- Right brace character (written via its code point). -/
def rbrace : Char := Char.ofNat 0x7d

/-- Number of characters consumed by `[^c]*c`: everything up to and
including the first occurrence of `c`; `none` if `c` does not occur. -/
def scanPast (c : Char) : Text → Option Nat
  | [] => none
  | x :: rest => if x == c then some 1 else (scanPast c rest).map (· + 1)

/-- Number of characters consumed by the brace group `\{[^\}]*\}`. -/
def bracePart : Text → Option Nat
  | [] => none
  | x :: rest => if x == lbrace then (scanPast rbrace rest).map (· + 1) else none

/-- The keyword of the first regex alternative. -/
def kwDocumentclass : Text := "documentclass".toList

/-- The keywords of the plain `keyword{...}` alternatives, in the order
the alternation lists them. -/
def kwUsepackage : Text := "usepackage".toList

/-- Keyword of the `setlength` alternative. -/
def kwSetlength : Text := "setlength".toList

/-- Keyword of the `begin` alternative. -/
def kwBegin : Text := "begin".toList

/-- Keyword of the `end` alternative. -/
def kwEnd : Text := "end".toList

/-- Characters consumed after the backslash by
`documentclass\[[^\]]*\]\{[^\}]*\}`. -/
def tryDocumentclass (s : Text) : Option Nat :=
  if kwDocumentclass.isPrefixOf s then
    match s.drop kwDocumentclass.length with
    | x :: rest =>
      if x == '[' then
        match scanPast ']' rest with
        | some k => (bracePart (rest.drop k)).map
            (fun m => kwDocumentclass.length + 1 + k + m)
        | none => none
      else none
    | [] => none
  else none

/-- Characters consumed after the backslash by a `keyword\{[^\}]*\}`
alternative. -/
def tryKw (kw : Text) (s : Text) : Option Nat :=
  if kw.isPrefixOf s then (bracePart (s.drop kw.length)).map (· + kw.length)
  else none

/-- Characters consumed after the backslash by `[a-zA-Z]+\{[^\}]*\}`:
a maximal nonempty run of letters followed by a brace group (a shorter
letter run cannot be followed by a brace, so no further backtracking
arises). -/
def tryGenericCmd (s : Text) : Option Nat :=
  let letters := s.takeWhile isAsciiLetter
  if letters.isEmpty then none
  else (bracePart (s.drop letters.length)).map (· + letters.length)

/-- Length of the command-removal regex match starting at the head of
the input (alternatives tried in the order of the pattern), if any. -/
def matchCmdLen : Text → Option Nat
  | [] => none
  | c :: rest =>
    if c == '\\' then
      (tryDocumentclass rest <|> tryKw kwUsepackage rest <|>
       tryKw kwSetlength rest <|> tryKw kwBegin rest <|>
       tryKw kwEnd rest <|> tryGenericCmd rest).map (· + 1)
    else none

/-- The `re.sub` scan of line 418 with replacement `''`.  The fuel is
one scan step per character; every match consumes at least one
character, so fuel `s.length` never runs out. -/
def cmdSubF : Nat → Text → Text
  | 0, s => s
  | _ + 1, [] => []
  | fuel + 1, c :: rest =>
    match matchCmdLen (c :: rest) with
    | some n => cmdSubF fuel ((c :: rest).drop n)
    | none => c :: cmdSubF fuel rest

/-- Line 418: remove every command-pattern match. -/
def cmdSub (s : Text) : Text := cmdSubF s.length s

/-- Characters consumed by `[^\)]*\\\)`: a run of non-`)` characters
whose last character is a backslash immediately followed by `)`. -/
def closeParen : Text → Option Nat
  | x :: y :: rest =>
    if x == '\\' && y == ')' then some 2
    else if x == ')' then none
    else (closeParen (y :: rest)).map (· + 1)
  | _ => none

/-- Length of a math-span match (`\$[^\$]*\$` or `\\\([^\)]*\\\)`)
starting at the head of the input, if any. -/
def mathLen : Text → Option Nat
  | [] => none
  | c :: rest =>
    if c == '$' then (scanPast '$' rest).map (· + 1)
    else if c == '\\' then
      match rest with
      | c2 :: rest2 => if c2 == '(' then (closeParen rest2).map (· + 2) else none
      | [] => none
    else none

/-- The `re.sub` scan of line 419: each math-span match is replaced by
`m.group(0)`, i.e. by the matched text itself. -/
def mathPassF : Nat → Text → Text
  | 0, s => s
  | _ + 1, [] => []
  | fuel + 1, c :: rest =>
    match mathLen (c :: rest) with
    | some n => (c :: rest).take n ++ mathPassF fuel ((c :: rest).drop n)
    | none => c :: mathPassF fuel rest

/-- Line 419 of functions.py. -/
def mathPass (s : Text) : Text := mathPassF s.length s

/-- The second cleaning stage, `clean_latex_text` (functions.py lines
417-420): command removal, the self-replacing math-span substitution,
then `strip()`. -/
def clean_latex_text (s : Text) : Text := pyStrip (mathPass (cmdSub s))

/-! ### The third cleaning stage, `clean_spacy_text` (functions.py lines 422-424)

Line 423 removes author-year citations:
`re.sub(r'\((?:[A-Za-z\s\.\-]+(?:,|\set\sal\.,?|\sand\s[A-Za-z\s\.\-]+,?)\s?\d{4}(?:;?\s?)?)+\)', '', text)`.
This pattern genuinely backtracks, so each piece is embedded as a
function from an input to the list of possible remainders, ordered the
way Python's engine explores them (greedy quantifiers longest-first,
alternatives left to right); the first complete match in that order is
the engine's match. -/

/-- The class `[A-Za-z\s\.\-]`. -/
def isCsChar (c : Char) : Bool :=
  isAsciiLetter c || pyWhitespace c || c == '.' || c == '-'

/-- The class `\d`. -/
def isDigitChar (c : Char) : Bool := 0x30 ≤ c.toNat && c.toNat ≤ 0x39

/-- Remainders after `[A-Za-z\s\.\-]+` (nonempty, longest first). -/
def csPlus (s : Text) : List Text :=
  let k := (s.takeWhile isCsChar).length
  (List.range k).map (fun i => s.drop (k - i))

/-- Remainders after `\s?` (greedy: consuming first). -/
def optWs : Text → List Text
  | [] => [[]]
  | c :: rest =>
    if pyWhitespace c then [rest, c :: rest] else [c :: rest]

/-- Remainders after `,?` (greedy: consuming first). -/
def optComma : Text → List Text
  | [] => [[]]
  | c :: rest => if c == ',' then [rest, c :: rest] else [c :: rest]

/-- Remainders after `\set\sal\.,?`. -/
def etAl : Text → List Text
  | c1 :: 'e' :: 't' :: c2 :: 'a' :: 'l' :: '.' :: rest =>
    if pyWhitespace c1 && pyWhitespace c2 then optComma rest else []
  | _ => []

/-- Remainders after `\sand\s[A-Za-z\s\.\-]+,?`. -/
def andAuthor : Text → List Text
  | c1 :: 'a' :: 'n' :: 'd' :: c2 :: rest =>
    if pyWhitespace c1 && pyWhitespace c2 then (csPlus rest).flatMap optComma
    else []
  | _ => []

/-- Remainders after the alternation `(?:,|\set\sal\.,?|\sand\s[A-Za-z\s\.\-]+,?)`,
alternatives in pattern order. -/
def sepAlt (s : Text) : List Text :=
  (match s with | ',' :: rest => [rest] | _ => []) ++ etAl s ++ andAuthor s

/-- Remainders after `\d{4}`. -/
def fourDigits : Text → List Text
  | a :: b :: c :: d :: rest =>
    if isDigitChar a && isDigitChar b && isDigitChar c && isDigitChar d
    then [rest] else []
  | _ => []

/-- Remainders after `(?:;?\s?)?` (greedy: semicolon branch first). -/
def optTail (s : Text) : List Text :=
  (match s with | ';' :: rest => optWs rest | _ => []) ++ optWs s

/-- Remainders after one citation group
`[A-Za-z\s\.\-]+(?:,|\set\sal\.,?|\sand\s[A-Za-z\s\.\-]+,?)\s?\d{4}(?:;?\s?)?`. -/
def citeGroup (s : Text) : List Text :=
  (csPlus s).flatMap (fun r1 => (sepAlt r1).flatMap (fun r2 =>
    (optWs r2).flatMap (fun r3 => (fourDigits r3).flatMap optTail)))

/-- Remainders after `(?:...)+` over `citeGroup`, more iterations first.
Every group consumes at least two characters, so fuel `s.length`
never runs out. -/
def citeGroupPlusF : Nat → Text → List Text
  | 0, _ => []
  | fuel + 1, s => (citeGroup s).flatMap (fun r => citeGroupPlusF fuel r ++ [r])

/-- Length of a citation match starting at the head of the input: an
opening parenthesis, one or more citation groups, and a closing
parenthesis; the first remainder in engine order that starts with `)`
gives the engine's match. -/
def matchCiteLen (s : Text) : Option Nat :=
  match s with
  | '(' :: rest =>
    match (citeGroupPlusF rest.length rest).filterMap (fun r =>
        match r with
        | ')' :: r2 => some (s.length - r2.length)
        | _ => none) with
    | n :: _ => some n
    | [] => none
  | _ => none

/-- The `re.sub` scan of line 423 with replacement `''`. -/
def citeSubF : Nat → Text → Text
  | 0, s => s
  | _ + 1, [] => []
  | fuel + 1, c :: rest =>
    match matchCiteLen (c :: rest) with
    | some n => citeSubF fuel ((c :: rest).drop n)
    | none => c :: citeSubF fuel rest

/-- The third cleaning stage, `clean_spacy_text` (functions.py lines
422-424): citation removal then `strip()`. -/
def clean_spacy_text (s : Text) : Text := pyStrip (citeSubF s.length s)

/-- Input on which the markup-command strip is not idempotent: removing
the command between the two fragments joins them into a new command. -/
def latexIdemCex : Text := "\\a\\b\x7bx\x7d\x7by\x7d".toList

/-- Input on which the citation strip is not idempotent: removing the
inner citation turns the enclosing parenthesis into a citation. -/
def citeIdemCex : Text := "(Auth, (Smith, 2020)2021)".toList

/-- Input whose inline math span contains a command: used against the
claim that math spans survive the markup-command strip unchanged. -/
def mathSpanCex : Text := "$\\frac\x7b1\x7d\x7b2\x7d$".toList

/-- The math-span body of `mathSpanCex`. -/
def mathSpanBody : Text := "\\frac\x7b1\x7d\x7b2\x7d".toList

/-- Literal substring search (`pat` occurs contiguously in `s`),
executable companion of `List.IsInfix`. -/
def infixSearch (pat : Text) : Text → Bool
  | [] => pat.isPrefixOf []
  | s@(_ :: cs) => pat.isPrefixOf s || infixSearch pat cs

/-! ### The parsed XML document of `grab_figure_data` (functions.py lines 170-317) -/

mutual
/-- A parsed markup tree — an element with tag name, attributes and
children, or a text node.  This is what `BeautifulSoup(content,
features="xml")` hands to the extraction loop.  The children sit in the
mutually defined `NodeList` so that the traversals below are mutual
structural recursions. -/
inductive Node where
  | elem : String → List (String × String) → NodeList → Node
  | text : Text → Node
/-- A sequence of sibling nodes. -/
inductive NodeList where
  | nil : NodeList
  | cons : Node → NodeList → NodeList
end

/-- Build a `NodeList` from an ordinary list (used to write concrete
documents). -/
def NodeList.ofList : List Node → NodeList
  | [] => NodeList.nil
  | n :: rest => NodeList.cons n (NodeList.ofList rest)

/-- Forget the sibling structure. -/
def NodeList.toList : NodeList → List Node
  | NodeList.nil => []
  | NodeList.cons n rest => n :: rest.toList

/-- An element node with its children given as a plain list. -/
def el (t : String) (a : List (String × String)) (ch : List Node) : Node :=
  Node.elem t a (NodeList.ofList ch)

/-- A text node with its content given as a string literal. -/
def tx (s : String) : Node := Node.text s.toList

/-- Ancestor context of a node: each entry is an ancestor paired with
that ancestor's following siblings, nearest ancestor first.  This is
exactly the information `find_parent` and `find_next_sibling` need. -/
abbrev Ctx := List (Node × NodeList)

mutual
/-- Preorder traversal from one node: the node itself, then its subtree;
`BeautifulSoup`'s `find_all` and `descendants` enumerate nodes in this
order.  `sibs` are the node's following siblings (recorded in the
context of its children), `ctx` its ancestor context. -/
def walkNode (n : Node) (sibs : NodeList) (ctx : Ctx) : List (Node × Ctx) :=
  (n, ctx) :: (match n with
    | Node.elem _ _ ch => walkList ch ((n, sibs) :: ctx)
    | Node.text _ => [])
/-- Preorder traversal of a sibling sequence. -/
def walkList (ns : NodeList) (ctx : Ctx) : List (Node × Ctx) :=
  match ns with
  | NodeList.nil => []
  | NodeList.cons n rest => walkNode n rest ctx ++ walkList rest ctx
end

/-- The tag name of an element node. -/
def tagOf : Node → Option String
  | Node.elem t _ _ => some t
  | Node.text _ => none

/-- `tag.get(key)`: the attribute value if present (first occurrence),
else `None`. -/
def attrGet (n : Node) (key : String) : Option Text :=
  match n with
  | Node.elem _ attrs _ =>
    (attrs.find? (fun kv => kv.1 == key)).map (fun kv => kv.2.toList)
  | Node.text _ => none

/-- All nodes of the document in document order with their contexts. -/
def docNodes (root : Node) : List (Node × Ctx) :=
  walkNode root NodeList.nil []

/-- The tag filter `re.compile(r"^[Ff]ig$")` of functions.py line 222:
the anchors make it an exact match, so only the tag names `fig` and
`Fig` qualify. -/
def isFigTag (t : String) : Bool := t == "fig" || t == "Fig"

/-- The tag filter `re.compile(r"^[Cc]aption$")` of line 287. -/
def isCaptionTag (t : String) : Bool := t == "caption" || t == "Caption"

/-- Descendants of a node (the node itself excluded) in document order:
the search space of `tag.find` and `tag.find_all`. -/
def descendants (n : Node) : List Node :=
  match n with
  | Node.elem _ _ ch => (walkList ch []).map Prod.fst
  | Node.text _ => []

/-- `tag.find(name)`: the first descendant element with that tag. -/
def findDesc (name : String) (n : Node) : Option Node :=
  (descendants n).find? (fun m => tagOf m == some name)

/-- `tag.get_text()`: concatenation of all text pieces of the subtree in
document order, with no separator. -/
def getText (n : Node) : Text :=
  ((walkNode n NodeList.nil []).filterMap (fun nc => match nc.1 with
    | Node.text s => some s
    | Node.elem _ _ _ => none)).flatten

/-- `.strip().replace("\n", " ")`, applied throughout `grab_figure_data`
to every extracted string (attribute values and `get_text()` results). -/
def stripNl (s : Text) : Text :=
  (pyStrip s).map (fun c => if c == '\n' then ' ' else c)

/-- Sentinel of functions.py line 231. -/
def noFigureLabel : Text := "No figure label".toList

/-- Sentinel of functions.py line 237. -/
def notFound : Text := "Not found".toList

/-- Sentinel of functions.py lines 267-269 (the `for`-`else` branch of
the xref loop). -/
def noXrefFound : Text := "No xref found".toList

/-- Sentinel of functions.py line 258. -/
def noTextAfter : Text := "No text after".toList

/-- Sentinel of functions.py lines 284 and 290. -/
def noCaptionTitle : Text := "No caption title".toList

/-- Sentinel of functions.py lines 285 and 292. -/
def noCaptionText : Text := "No caption text".toList

/-- `ref.find_parent('p')`: the nearest ancestor with tag `p`, returned
with its following siblings. -/
def findParentP (ctx : Ctx) : Option (Node × NodeList) :=
  ctx.find? (fun ac => tagOf ac.1 == some "p")

/-- `before_text.find_next_sibling('p')`: the first following sibling
element with tag `p`. -/
def findNextSiblingP (sibs : NodeList) : Option Node :=
  sibs.toList.find? (fun m => tagOf m == some "p")

/-- The `xref` elements of the document with their contexts
(functions.py line 239: `soup.find_all("xref")`). -/
def xrefsWithCtx (root : Node) : List (Node × Ctx) :=
  (docNodes root).filter (fun nc => tagOf nc.1 == some "xref")

/-- The xref loop of functions.py lines 239-269 for one figure: scan all
`xref` elements in document order.  Line 243's `if ref_id:` tests the
raw attribute value for truthiness, so an xref whose `rid` is missing
*or the empty string* is passed over (its interim sentinel assignments
are dead).  At the first xref whose non-empty `rid`, cleaned, equals
the figure's cleaned id *and* which lies inside a paragraph, the loop
`break`s with that paragraph's text as context-before and its next
sibling paragraph's text as context-after (sentinel when no sibling).
A matching xref with no enclosing paragraph does not `break` either:
the scan continues (every exit from the loop overwrites both
variables, so those iterations' assignments are also dead).  If the
loop finishes without `break`, its `for`-`else` branch sets both
fields to `"No xref found"`. -/
def xrefScan (figId : Text) : List (Node × Ctx) → Text × Text
  | [] => (noXrefFound, noXrefFound)
  | (x, ctx) :: rest =>
    match attrGet x "rid" with
    | none => xrefScan figId rest
    | some rid =>
      if rid.isEmpty then xrefScan figId rest
      else if stripNl rid == figId then
        match findParentP ctx with
        | none => xrefScan figId rest
        | some (p, sibs) =>
          match findNextSiblingP sibs with
          | some q => (stripNl (getText p), stripNl (getText q))
          | none => (stripNl (getText p), noTextAfter)
      else xrefScan figId rest

/-- A cross-reference marker targeting the given figure: an xref whose
`rid` attribute is present, non-empty (line 243's truthiness test), and
cleaned equal to the figure's cleaned id — the "matching marker" of the
specification, regardless of whether it lies in a paragraph. -/
def xrefMatches (figId : Text) (nc : Node × Ctx) : Bool :=
  match attrGet nc.1 "rid" with
  | some rid => !rid.isEmpty && stripNl rid == figId
  | none => false

/-- Title and first paragraph of one caption element (lines 289-292):
`caption.find("title")` / `caption.find("p")`, sentinels when absent. -/
def extractCaption (c : Node) : Text × Text :=
  (match findDesc "title" c with
   | some t => stripNl (getText t)
   | none => noCaptionTitle,
   match findDesc "p" c with
   | some p => stripNl (getText p)
   | none => noCaptionText)

/-- The caption elements of a figure (line 287):
`figure.find_all(re.compile(r"^[Cc]aption$"))`. -/
def captionsOf (fig : Node) : List Node :=
  (descendants fig).filter (fun m => match tagOf m with
    | some t => isCaptionTag t
    | none => false)

/-- The caption loop of lines 284-292: start from the sentinels; every
caption element unconditionally overwrites both fields. -/
def captionScan (fig : Node) : Text × Text :=
  (captionsOf fig).foldl (fun _ c => extractCaption c)
    (noCaptionTitle, noCaptionText)

/-- One row of `figure_data.tsv` as assembled at lines 295-304.  The
`PMC ID` column is omitted: it is constant per document and comes from
the directory name, not from the parse tree.  `associatedImage` is an
`Option` because `image_ref_tag.get("xlink:href")` yields `None` when a
`graphic` element lacks the attribute. -/
structure FigureRecord where
  figureId : Text
  figureLabel : Text
  associatedImage : Option Text
  sentencesBefore : Text
  sentencesAfter : Text
  captionTitle : Text
  captionText : Text
deriving DecidableEq

/-- The figure elements of the document (line 222):
`soup.find_all(re.compile(r"^[Ff]ig$"))`. -/
def figuresOf (root : Node) : List Node :=
  (docNodes root).filterMap (fun nc => match tagOf nc.1 with
    | some t => if isFigTag t then some nc.1 else none
    | none => none)

/-- The body of the figure loop (lines 223-304) for one figure element.
`figure.get("id")` returns `None` when the attribute is missing, and
`None.strip()` at line 225 then raises `AttributeError`; that is the
error case.  Everything else that is absent gets a sentinel. -/
def recordOf (root : Node) (fig : Node) : Except String FigureRecord :=
  match attrGet fig "id" with
  | none => Except.error "AttributeError"
  | some rawId =>
    Except.ok
      { figureId := stripNl rawId
        figureLabel :=
          match findDesc "label" fig with
          | some t => stripNl (getText t)
          | none => noFigureLabel
        associatedImage :=
          match findDesc "graphic" fig with
          | some g => attrGet g "xlink:href"
          | none => some notFound
        sentencesBefore := (xrefScan (stripNl rawId) (xrefsWithCtx root)).1
        sentencesAfter := (xrefScan (stripNl rawId) (xrefsWithCtx root)).2
        captionTitle := (captionScan fig).1
        captionText := (captionScan fig).2 }

/-- Short-circuiting list traversal in `Except`: one result appended
per element, and the first raised exception propagates — the shape of
the Python `for figure in figures` loop. -/
def mapExcept {α β : Type} (f : α → Except String β) :
    List α → Except String (List β)
  | [] => Except.ok []
  | x :: xs =>
    match f x with
    | Except.error e => Except.error e
    | Except.ok b =>
      match mapExcept f xs with
      | Except.error e => Except.error e
      | Except.ok bs => Except.ok (b :: bs)

/-- The per-document figure extraction of `grab_figure_data`
(functions.py lines 222-304): one `FigureRecord` per matched figure
element, in document order; an uncaught `AttributeError` aborts the
extraction of the document. -/
def grab_figure_data (root : Node) : Except String (List FigureRecord) :=
  mapExcept (recordOf root) (figuresOf root)

/-- Whether an `Except` computation raised. -/
def isError {ε α : Type} : Except ε α → Bool
  | Except.error _ => true
  | Except.ok _ => false

/-- Document for the context tie-break counterexample: the first marker
referencing `F1` sits directly under the article root (no enclosing
paragraph), the second sits inside a paragraph with a following sibling
paragraph. -/
def c3Doc : Node :=
  el "article" []
    [el "xref" [("rid", "F1")] [],
     el "p" []
       [el "xref" [("rid", "F1")] [],
        tx " discusses the figure."],
     el "p" [] [tx "After paragraph."],
     el "fig" [("id", "F1")] []]

/-- The cleaned figure id of the figure in `c3Doc`. -/
def c3FigId : Text := "F1".toList

/-- A figure element with two caption blocks, for the caption-overwrite
witness. -/
def c4Fig : Node :=
  el "fig" [("id", "F2")]
    [el "caption" []
       [el "title" [] [tx "First title"],
        el "p" [] [tx "First text"]],
     el "caption" []
       [el "title" [] [tx "Second title"],
        el "p" [] [tx "Second text"]]]

/-- A figure-like element whose tag is upper-cased beyond the first
letter: `re.compile(r"^[Ff]ig$")` does not match it. -/
def c8Doc : Node := el "FIG" [("id", "F1")] []

/-- A document whose second figure element lacks the required `id`
attribute. -/
def c9Doc : Node :=
  el "article" []
    [el "fig" [("id", "F1")] [],
     el "fig" [] [el "caption" [] []]]

/-! ### The sentence loop of `grab_spacy_text` (functions.py lines 319-367)

The spaCy segmentation itself is an external model; the embedding takes
the segmented sentence list as given and models the keep/extend loop of
lines 354-362.  The `PMC ID` column (the `subdir` name) is constant per
document and omitted. -/

/-- The search terms of functions.py line 326. -/
def terms : List Text :=
  ["Figure".toList, "Fig".toList, "figure".toList, "fig".toList,
   "fig. ".toList, "Fig. ".toList]

/-- Line 355: `any(term in sentence.text for term in terms)`. -/
def containsTerm (s : Text) : Bool := terms.any (fun t => infixSearch t s)

/-- The test of line 357: `sentence.text.strip().endswith("Fig.")`. -/
def endsWithFigDot (s : Text) : Bool := "Fig.".toList.isSuffixOf (pyStrip s)

/-- The loop body of functions.py lines 354-362 for the sentence at
index `i`: keep the sentence when it contains a search term; when the
kept sentence's trimmed text ends with `"Fig."`, emit
`sentence.text + " " + next_sentence`, where `next_sentence` is the
following sentence's text, or the empty string when the sentence is the
last one (the space is appended either way). -/
def sentRecord (ss : List Text) (i : Nat) (s : Text) : Option Text :=
  if containsTerm s then
    some (if endsWithFigDot s then
        s ++ ' ' :: (if i + 1 < ss.length then ss.getD (i + 1) [] else [])
      else s)
  else none

/-- The per-document sentence records of `grab_spacy_text`: the kept
(and possibly extended) sentences, in order. -/
def grab_spacy_text (ss : List Text) : List Text :=
  ss.enum.filterMap (fun p => sentRecord ss p.1 p.2)

/-! ### The merge loop of `combine_dataframes` (functions.py lines 369-404) -/

/-- One row of `figure_data.tsv` as read back by `pd.read_csv` in
`combine_dataframes`: the eight figure columns, as strings. -/
structure FigRow where
  pmcId : Text
  figureId : Text
  figureLabel : Text
  associatedImage : Text
  sentencesBefore : Text
  sentencesAfter : Text
  captionTitle : Text
  captionText : Text
deriving DecidableEq

/-- One row of `spacy_figure_data.tsv`: record id and sentence text. -/
structure SentRow where
  pmcId : Text
  sentence : Text
deriving DecidableEq

/-- One row of `combined_figure_data.tsv`: the eight figure columns
plus `Spacy Extracted Text`, which is `None` when nothing matched. -/
structure MergedRow where
  pmcId : Text
  figureId : Text
  figureLabel : Text
  associatedImage : Text
  sentencesBefore : Text
  sentencesAfter : Text
  captionTitle : Text
  captionText : Text
  spacyText : Option Text
deriving DecidableEq

/-- The metacharacters of Python `re` patterns: a pattern containing
none of these is matched purely literally by `re.search`. -/
def regexMeta (c : Char) : Bool :=
  c == '.' || c == '^' || c == '$' || c == '*' || c == '+' || c == '?' ||
  c == lbrace || c == rbrace || c == '[' || c == ']' || c == '\\' ||
  c == '|' || c == '(' || c == ')'

/-- The regex fragment this embedding interprets: patterns whose only
metacharacter is `.`.  On this fragment `re.search` is literal matching
with `.` as the any-character-but-newline wildcard.  Patterns outside
the fragment are not interpreted (see `matchingRows`): some of them are
invalid regexes on which `re.compile` raises `re.error` (for example
`*`), the others involve constructs (groups, classes, quantifiers,
escapes) whose semantics the model does not cover. -/
def plainPattern (pat : Text) : Bool :=
  pat.all (fun c => !regexMeta c || c == '.')

/-- Regex match at the start of the text, for patterns in the
`plainPattern` fragment: `.` matches any character except a newline,
every other character matches itself. -/
def reMatchHere : Text → Text → Bool
  | [], _ => true
  | _ :: _, [] => false
  | p :: ps, c :: cs =>
    (if p == '.' then !(c == '\n') else p == c) && reMatchHere ps cs

/-- Unanchored regex search (`re.search` semantics) for patterns in the
`plainPattern` fragment: try every start position, leftmost first. -/
def reSearch (pat : Text) : Text → Bool
  | [] => reMatchHere pat []
  | s@(_ :: cs) => reMatchHere pat s || reSearch pat cs

/-- Line 387:
`df2[df2['Sentences'].str.contains(fig_id, na=False) | df2['Sentences'].str.contains(fig_label, na=False)]`
— the sentence rows whose text matches the figure id or the figure
label as regex patterns (`str.contains` keeps its default
`regex=True`); no label value is excluded.  `str.contains` compiles its
pattern, so the call can raise — `re.compile('*')` fails with
`re.error: nothing to repeat` — and an exception propagates out of the
merge loop.  The embedding interprets patterns in the `plainPattern`
fragment and returns the error case for every pattern outside it: for
the invalid ones this is the program's `re.error`, for the rest the
model simply makes no claim. -/
def matchingRows (sents : List SentRow) (f : FigRow) :
    Except String (List SentRow) :=
  if plainPattern f.figureId && plainPattern f.figureLabel then
    Except.ok (sents.filter (fun s =>
      reSearch f.figureId s.sentence || reSearch f.figureLabel s.sentence))
  else Except.error "str.contains: pattern outside the modelled fragment"

/-- `row1.to_dict()` followed by the `Spacy Extracted Text` assignment
(lines 392-393 and 397-398): every figure column is copied, one key is
added. -/
def mergedOf (f : FigRow) (o : Option Text) : MergedRow :=
  { pmcId := f.pmcId, figureId := f.figureId, figureLabel := f.figureLabel,
    associatedImage := f.associatedImage,
    sentencesBefore := f.sentencesBefore,
    sentencesAfter := f.sentencesAfter,
    captionTitle := f.captionTitle, captionText := f.captionText,
    spacyText := o }

/-- Lines 382-399: the merged rows contributed by one figure row — one
per matching sentence if any matched, otherwise a single row whose
sentence field is `None`; an exception raised while matching (an
invalid regex pattern) propagates. -/
def rowsFor (sents : List SentRow) (f : FigRow) :
    Except String (List MergedRow) :=
  match matchingRows sents f with
  | Except.error e => Except.error e
  | Except.ok ms =>
    Except.ok (if !ms.isEmpty then ms.map (fun s => mergedOf f (some s.sentence))
      else [mergedOf f none])

/-- The merge loop of `combine_dataframes` (lines 379-399): iterate over
the figure rows in order, appending the merged rows of each; the first
exception aborts the whole merge, so nothing is written. -/
def combine_dataframes (figs : List FigRow) (sents : List SentRow) :
    Except String (List MergedRow) :=
  (mapExcept (rowsFor sents) figs).map List.flatten

/-- Written from claim C7's words, not from the source, for comparison:
literal substring matching in which only a non-empty, non-sentinel
figure label may serve as a match token. -/
def specMatchingRows (sents : List SentRow) (f : FigRow) : List SentRow :=
  sents.filter (fun s =>
    infixSearch f.figureId s.sentence ||
      (!f.figureLabel.isEmpty && !(f.figureLabel == noFigureLabel) &&
        infixSearch f.figureLabel s.sentence))

/-- A kept last sentence whose trimmed text ends with `"Fig."`. -/
def c5LastSentence : Text := "Results are in Fig.".toList

/-- Sentence list for the continuation-rule witness. -/
def c5Sentences : List Text :=
  ["As shown in Fig.".toList, "1 the growth plateaus.".toList]

/-- A figure row whose label is the sentinel `"No figure label"`. -/
def c7SentinelFig : FigRow :=
  { pmcId := "PMC1".toList, figureId := "F9".toList,
    figureLabel := noFigureLabel,
    associatedImage := "img1.jpg".toList,
    sentencesBefore := "b".toList, sentencesAfter := "a".toList,
    captionTitle := "t".toList, captionText := "c".toList }

/-- A sentence row containing the sentinel label text (and not the
figure id `F9`). -/
def c7SentinelSent : SentRow :=
  { pmcId := "PMC1".toList,
    sentence := "There is No figure label in this article.".toList }

/-- A figure row whose label `Fig. 1` contains the metacharacter `.`. -/
def c7DotFig : FigRow :=
  { pmcId := "PMC1".toList, figureId := "F1".toList,
    figureLabel := "Fig. 1".toList,
    associatedImage := "img1.jpg".toList,
    sentencesBefore := "b".toList, sentencesAfter := "a".toList,
    captionTitle := "t".toList, captionText := "c".toList }

/-- A sentence row the pattern `Fig. 1` reaches only through the `.`
wildcard: the text contains `Figs 1` but not the literal `Fig. 1`. -/
def c7DotSent : SentRow :=
  { pmcId := "PMC1".toList,
    sentence := "Figs 1 and 2 show the results.".toList }

/-- A figure row with metacharacter-free id and label, for the merger
witnesses. -/
def c6Fig : FigRow :=
  { pmcId := "PMC2".toList, figureId := "F7".toList,
    figureLabel := "Figure 7".toList,
    associatedImage := "img7.jpg".toList,
    sentencesBefore := "b7".toList, sentencesAfter := "a7".toList,
    captionTitle := "t7".toList, captionText := "c7".toList }

/-- A sentence row matching neither the id nor the label of `c6Fig`. -/
def c6NoMatchSent : SentRow :=
  { pmcId := "PMC2".toList,
    sentence := "Nothing relevant here.".toList }

/-- A figure row whose label `*` is an invalid regular expression:
`re.compile('*')` raises `re.error` ("nothing to repeat"), so the
program's merge aborts when the loop reaches this row.  Labels are
arbitrary text taken from the XML, so such a row is reachable. -/
def c6BadFig : FigRow :=
  { pmcId := "PMC3".toList, figureId := "F8".toList,
    figureLabel := "*".toList,
    associatedImage := "img8.jpg".toList,
    sentencesBefore := "b8".toList, sentencesAfter := "a8".toList,
    captionTitle := "t8".toList, captionText := "c8".toList }

/-- Invariant of `collapseWs` output: every non-tab-whitespace character
is a plain space, and no two adjacent characters are both in the class. -/
def GoodWs (l : Text) : Prop :=
  (∀ c ∈ l, isWnt c = true → c = ' ') ∧
    List.Chain' (fun a b => ¬(isWnt a = true ∧ isWnt b = true)) l

theorem collapseWs_head? (c : Char) (rest : Text) :
    (collapseWs (c :: rest)).head? = some (if isWnt c then ' ' else c) := by
  induction rest generalizing c with
  | nil => by_cases h : isWnt c <;> simp [collapseWs, h]
  | cons c₂ rest ih =>
    by_cases h1 : isWnt c <;> by_cases h2 : isWnt c₂ <;>
      simp [collapseWs, h1, h2, ih]

theorem goodWs_collapseWs (l : Text) : GoodWs (collapseWs l) := by
  induction l with
  | nil => exact ⟨by simp [collapseWs], by simp [collapseWs]⟩
  | cons c rest ih =>
    cases rest with
    | nil =>
      constructor
      · intro x hx hw
        by_cases h : isWnt c
        · simp [collapseWs, h] at hx
          simp [hx]
        · simp [collapseWs, h] at hx
          subst hx
          exact absurd hw (by simp [h])
      · by_cases h : isWnt c <;> simp [collapseWs, h]
    | cons c₂ rest' =>
      by_cases h12 : (isWnt c && isWnt c₂) = true
      · simpa [collapseWs, h12] using ih
      · obtain ⟨ihm, ihc⟩ := ih
        have hcoll : collapseWs (c :: c₂ :: rest') =
            (if isWnt c then ' ' else c) :: collapseWs (c₂ :: rest') := by
          simp [collapseWs, h12]
        constructor
        · intro x hx hw
          rw [hcoll] at hx
          rcases List.mem_cons.mp hx with hx | hx
          · subst hx
            by_cases h1 : isWnt c
            · simp [h1]
            · exact absurd hw (by simp [h1])
          · exact ihm x hx hw
        · rw [hcoll, List.chain'_cons']
          refine ⟨?_, ihc⟩
          intro y hy
          rw [collapseWs_head?] at hy
          simp at hy
          subst hy
          simp only [Bool.and_eq_true, not_and] at h12 ⊢
          by_cases h1 : isWnt c <;> by_cases h2 : isWnt c₂ <;>
            simp [h1, h2] at h12 ⊢

theorem collapseWs_of_goodWs (l : Text) (h : GoodWs l) : collapseWs l = l := by
  induction l with
  | nil => simp [collapseWs]
  | cons c rest ih =>
    obtain ⟨hm, hc⟩ := h
    cases rest with
    | nil =>
      by_cases h1 : isWnt c <;> simp [collapseWs, h1]
      exact (hm c (by simp) h1).symm
    | cons c₂ rest' =>
      rw [List.chain'_cons] at hc
      have h12 : ¬(isWnt c = true ∧ isWnt c₂ = true) := hc.1
      have hnot : (isWnt c && isWnt c₂) = false := by
        by_cases hx1 : isWnt c <;> by_cases hx2 : isWnt c₂ <;>
          simp [hx1, hx2] at h12 ⊢
      have ih' : collapseWs (c₂ :: rest') = c₂ :: rest' := by
        refine ih ⟨?_, hc.2⟩
        intro x hx hw
        exact hm x (by simp [hx]) hw
      by_cases h1 : isWnt c
      · have hsp : c = ' ' := hm c (by simp) h1
        have h2 : isWnt c₂ = false := by
          rcases Bool.eq_false_or_eq_true (isWnt c₂) with h2 | h2
          · exact absurd ⟨h1, h2⟩ h12
          · exact h2
        simp [collapseWs, hnot, h1, ih', hsp, h2]
      · simp [collapseWs, hnot, h1, ih']

theorem goodWs_suffix {l l' : Text} (h : GoodWs l) (hs : l' <:+ l) :
    GoodWs l' :=
  ⟨fun c hc hw => h.1 c (hs.sublist.mem hc) hw, h.2.suffix hs⟩

theorem goodWs_reverse {l : Text} (h : GoodWs l) : GoodWs l.reverse := by
  refine ⟨fun c hc hw => h.1 c (by simpa using hc) hw, ?_⟩
  rw [List.chain'_reverse]
  exact h.2.imp (fun a b hab hba => hab ⟨hba.2, hba.1⟩)

theorem goodWs_pyStrip {l : Text} (h : GoodWs l) : GoodWs (pyStrip l) :=
  goodWs_reverse
    (goodWs_suffix (goodWs_reverse (goodWs_suffix h (List.dropWhile_suffix _)))
      (List.dropWhile_suffix _))

theorem dropWhile_head_false {p : Char → Bool} {l t : Text} {c : Char}
    (h : l.dropWhile p = c :: t) : p c = false := by
  induction l with
  | nil => simp at h
  | cons a l ih =>
    by_cases ha : p a
    · rw [List.dropWhile_cons_of_pos ha] at h
      exact ih h
    · rw [List.dropWhile_cons_of_neg ha] at h
      injection h with h1 h2
      subst h1
      simpa using ha

theorem dropWhile_idem (p : Char → Bool) (l : Text) :
    (l.dropWhile p).dropWhile p = l.dropWhile p := by
  cases h : l.dropWhile p with
  | nil => simp
  | cons c t =>
    rw [List.dropWhile_cons_of_neg]
    simp [dropWhile_head_false h]

theorem pyStrip_idem (l : Text) : pyStrip (pyStrip l) = pyStrip l := by
  unfold pyStrip
  set A := l.dropWhile pyWhitespace with hA
  set B := A.reverse.dropWhile pyWhitespace with hB
  have h1 : B.reverse.dropWhile pyWhitespace = B.reverse := by
    cases hBr : B.reverse with
    | nil => simp
    | cons c t =>
      -- `B.reverse` is a prefix of `A`, so its head is the head of `A`,
      -- which fails `pyWhitespace` since `A` is a `dropWhile` result.
      have hsuf : B <:+ A.reverse := hB ▸ List.dropWhile_suffix _
      have hpre : B.reverse <+: A := by
        have h2 := List.reverse_prefix.mpr hsuf
        simpa using h2
      obtain ⟨u, hu⟩ := hpre
      have hAeq : l.dropWhile pyWhitespace = c :: (t ++ u) := by
        rw [← hA, ← hu, hBr]
        simp
      rw [List.dropWhile_cons_of_neg]
      simp [dropWhile_head_false hAeq]
  rw [h1, show B.reverse.reverse = B from by simp, hB, dropWhile_idem]

theorem mem_pyStrip {c : Char} {l : Text} (h : c ∈ pyStrip l) : c ∈ l := by
  unfold pyStrip at h
  rw [List.mem_reverse] at h
  have h2 := (List.dropWhile_suffix pyWhitespace).sublist.mem h
  rw [List.mem_reverse] at h2
  exact (List.dropWhile_suffix pyWhitespace).sublist.mem h2

theorem replaceNbsp_of_goodWs {l : Text} (h : GoodWs l) :
    replaceNbsp l = l := by
  unfold replaceNbsp
  have hcong : ∀ c ∈ l, (if c == nbsp then ' ' else c) = c := by
    intro c hc
    by_cases hn : (c == nbsp) = true
    · have hcn : c = nbsp := by simpa using hn
      have hw : isWnt c = true := by rw [hcn]; decide
      have hsp := h.1 c hc hw
      rw [hcn] at hsp
      exact absurd hsp (by decide)
    · simp [hn]
  rw [List.map_congr_left hcong]
  simp

/-- Claim C1 (amended): of the three Normalizer stages only the first,
`simple_clean_text`, is idempotent — for every input string `T`,
`simple_clean_text (simple_clean_text T) = simple_clean_text T`.  The
markup-command strip and the citation strip are not idempotent (see the
counterexample theorem): removing a match can join the surrounding text
into a new match. -/
theorem c1_simple_clean_idempotent (s : Text) :
    simple_clean_text (simple_clean_text s) = simple_clean_text s := by
  have hg : GoodWs (simple_clean_text s) :=
    goodWs_pyStrip (goodWs_collapseWs _)
  unfold simple_clean_text at hg ⊢
  rw [replaceNbsp_of_goodWs hg, collapseWs_of_goodWs _ hg, pyStrip_idem]

theorem mathPassF_id (fuel : Nat) (s : Text) : mathPassF fuel s = s := by
  induction fuel generalizing s with
  | zero => rfl
  | succ fuel ih =>
    cases s with
    | nil => rfl
    | cons c rest =>
      cases h : mathLen (c :: rest) with
      | none => simp [mathPassF, h, ih]
      | some n => simp [mathPassF, h, ih]

theorem infixSearch_iff (pat s : Text) :
    infixSearch pat s = true ↔ pat <:+: s := by
  induction s with
  | nil =>
    simp [infixSearch, List.isPrefixOf_iff_prefix]
  | cons c cs ih =>
    simp [infixSearch, List.isPrefixOf_iff_prefix, ih, List.infix_cons_iff]

/-- Claim C1 (counterexample): the second and third Normalizer stages
are not idempotent.  `clean_latex_text` on `\a\b{x}{y}` removes `\b{x}`,
which joins `\a` and `{y}` into the fresh command `\a{y}` that a second
application removes; `clean_spacy_text` on `(Auth, (Smith, 2020)2021)`
removes the inner citation, which turns the enclosing parenthesis into
the fresh citation `(Auth, 2021)` that a second application removes. -/
theorem c1_counterexample :
    clean_latex_text (clean_latex_text latexIdemCex) ≠
      clean_latex_text latexIdemCex ∧
    clean_spacy_text (clean_spacy_text citeIdemCex) ≠
      clean_spacy_text citeIdemCex :=
  ⟨by decide, by decide⟩

/-- Claim C2 (counterexample): the text of an inline `$...$` math span
does not always appear unmodified in the output of the markup-command
strip: in `$\frac{1}{2}$` the span body `\frac{1}{2}` contains a
single-argument command invocation, the command-removal pass deletes
`\frac{1}` inside the span, and the span body no longer occurs in the
stage's output `${2}$`. -/
theorem c2_counterexample :
    infixSearch mathSpanBody mathSpanCex = true ∧
    clean_latex_text mathSpanCex = "$\x7b2\x7d$".toList ∧
    infixSearch mathSpanBody (clean_latex_text mathSpanCex) = false :=
  ⟨by decide, by decide, by decide⟩

/-- Claim C2 (amended): the markup-command strip removes the fixed
command shapes, but inline math spans are not protected from it: the
math-span substitution of line 419 replaces every `$...$` or `\(...\)`
match by `m.group(0)` — the matched text itself — and is therefore the
identity on every string, and a command invocation inside a math span is
removed by the command pass like any other (`$\frac{1}{2}$` becomes
`${2}$`). -/
theorem c2_math_pass_identity :
    (∀ s : Text, mathPass s = s) ∧
    clean_latex_text mathSpanCex = "$\x7b2\x7d$".toList :=
  ⟨fun s => mathPassF_id s.length s, by decide⟩

/-- Claim C3 (amended): for every document and figure id, the emitted
context fields are those of the first matching cross-reference marker
*that lies inside a paragraph* (document order): its enclosing paragraph
is context-before, and that paragraph's next sibling paragraph is
context-after (`"No text after"` when there is no such sibling).  A
matching marker outside any paragraph does not stop the scan — it is
passed over — and when no matching marker lies inside a paragraph both
fields are `"No xref found"`. -/
theorem c3_first_paragraph_match_wins (figId : Text)
    (xs : List (Node × Ctx)) :
    xrefScan figId xs =
      match xs.find? (fun nc =>
          xrefMatches figId nc && (findParentP nc.2).isSome) with
      | some nc =>
        (match findParentP nc.2 with
         | some (p, sibs) =>
           (match findNextSiblingP sibs with
            | some q => (stripNl (getText p), stripNl (getText q))
            | none => (stripNl (getText p), noTextAfter))
         | none => (noXrefFound, noXrefFound))
      | none => (noXrefFound, noXrefFound) := by
  induction xs with
  | nil => simp [xrefScan]
  | cons nc rest ih =>
    obtain ⟨x, ctx⟩ := nc
    by_cases hm : (xrefMatches figId (x, ctx) &&
        (findParentP (x, ctx).2).isSome) = true
    · rw [List.find?_cons_of_pos
        (p := fun nc => xrefMatches figId nc && (findParentP nc.2).isSome)
        rest hm]
      have h1 : xrefMatches figId (x, ctx) = true :=
        ((Bool.and_eq_true _ _).mp hm).1
      have h2 : (findParentP ctx).isSome = true :=
        ((Bool.and_eq_true _ _).mp hm).2
      obtain ⟨ps, hp⟩ := Option.isSome_iff_exists.mp h2
      obtain ⟨p, sibs⟩ := ps
      cases hrid : attrGet x "rid" with
      | none => rw [xrefMatches, hrid] at h1; simp at h1
      | some rid =>
        have hboth : (!rid.isEmpty && (stripNl rid == figId)) = true := by
          rw [xrefMatches, hrid] at h1
          exact h1
        have hne : rid.isEmpty = false := by
          have := ((Bool.and_eq_true _ _).mp hboth).1
          simpa using this
        have heq : (stripNl rid == figId) = true :=
          ((Bool.and_eq_true _ _).mp hboth).2
        cases hq : findNextSiblingP sibs <;>
          simp [xrefScan, hrid, hne, heq, hp, hq]
    · rw [List.find?_cons_of_neg
        (p := fun nc => xrefMatches figId nc && (findParentP nc.2).isSome)
        rest hm, ← ih]
      cases hrid : attrGet x "rid" with
      | none => simp [xrefScan, hrid]
      | some rid =>
        by_cases hne : rid.isEmpty = true
        · simp [xrefScan, hrid, hne]
        · have hne' : rid.isEmpty = false := by simpa using hne
          by_cases heq : (stripNl rid == figId) = true
          · have hp : findParentP ctx = none := by
              cases hp : findParentP ctx with
              | none => rfl
              | some ps =>
                exact absurd (by simp [xrefMatches, hrid, hne', heq, hp]) hm
            simp [xrefScan, hrid, hne', heq, hp]
          · simp [xrefScan, hrid, hne', heq]

/-- Claim C3 (counterexample): in `c3Doc` there are two markers whose
target is the figure id `F1`, yet the emitted context does not agree
with a scan that stops at the first matching marker: the first marker
has no enclosing paragraph, the loop keeps scanning, and the context
comes from the second marker's paragraph. -/
theorem c3_counterexample :
    ((xrefsWithCtx c3Doc).filter (xrefMatches c3FigId)).length = 2 ∧
    xrefScan c3FigId (xrefsWithCtx c3Doc) =
      ("discusses the figure.".toList, "After paragraph.".toList) ∧
    xrefScan c3FigId (xrefsWithCtx c3Doc) ≠
      xrefScan c3FigId ((xrefsWithCtx c3Doc).take
        ((xrefsWithCtx c3Doc).findIdx (xrefMatches c3FigId) + 1)) :=
  ⟨by decide, by decide, by decide⟩

theorem foldl_overwrite_last {α β : Type} (f : α → β) (init : β)
    (l : List α) (x : α) (h : l.getLast? = some x) :
    l.foldl (fun _ c => f c) init = f x := by
  induction l generalizing init with
  | nil => simp at h
  | cons a l ih =>
    cases l with
    | nil =>
      simp at h
      simp [h]
    | cons b t =>
      rw [List.getLast?_cons_cons] at h
      simpa using ih (f a) h

/-- Claim C4: when a figure element contains two or more caption-type
child elements, the emitted caption title and caption text are the title
and first paragraph extracted from the *last* caption element in
document order: each iteration of the caption loop overwrites both
fields, so later captions win and values are never accumulated. -/
theorem c4_last_caption_wins (fig : Node) (c : Node)
    (h2 : 2 ≤ (captionsOf fig).length)
    (hlast : (captionsOf fig).getLast? = some c) :
    captionScan fig = extractCaption c := by
  unfold captionScan
  exact foldl_overwrite_last extractCaption _ _ c hlast

/-- Witness for claim C4 on a figure with two caption blocks. -/
theorem c4_last_caption_wins_witness :
    2 ≤ (captionsOf c4Fig).length ∧
    captionScan c4Fig = extractCaption
      (el "caption" []
        [el "title" [] [tx "Second title"],
         el "p" [] [tx "Second text"]]) :=
  ⟨by decide, c4_last_caption_wins c4Fig _ (by decide) rfl⟩

/-- Claim C8 (amended): figure containers are matched by the anchored
pattern `^[Ff]ig$` of functions.py line 222, so exactly the tag names
`fig` and `Fig` are treated as figures; any other casing (for example
`FIG` or `fIg`) is not.  On a one-element document carrying an `id`
attribute, extraction yields one sentinel-filled record precisely for
the two accepted spellings and an empty record list otherwise. -/
theorem c8_fig_tag_match (t : String) (v : String) :
    grab_figure_data (Node.elem t [("id", v)] NodeList.nil) =
      Except.ok (if isFigTag t then
        [{ figureId := stripNl v.toList
           figureLabel := noFigureLabel
           associatedImage := some notFound
           sentencesBefore := noXrefFound
           sentencesAfter := noXrefFound
           captionTitle := noCaptionTitle
           captionText := noCaptionText }]
      else []) := by
  by_cases h : isFigTag t = true
  · have ht : t = "fig" ∨ t = "Fig" := by simpa [isFigTag] using h
    rcases ht with ht | ht <;> subst ht <;> rfl
  · have hf : isFigTag t = false := by simpa using h
    simp [grab_figure_data, figuresOf, docNodes, walkNode, walkList, tagOf,
      hf, mapExcept]

/-- Claim C8 (counterexample): an element tagged `FIG` — one of the
casings the claim requires to be treated as a figure — produces no
FigureRecord, while the same element tagged `fig` produces one. -/
theorem c8_counterexample :
    grab_figure_data c8Doc = Except.ok [] ∧
    grab_figure_data (el "fig" [("id", "F1")] []) =
      Except.ok [{ figureId := "F1".toList
                   figureLabel := noFigureLabel
                   associatedImage := some notFound
                   sentencesBefore := noXrefFound
                   sentencesAfter := noXrefFound
                   captionTitle := noCaptionTitle
                   captionText := noCaptionText }] :=
  ⟨rfl, rfl⟩

theorem mapExcept_error {α β : Type} (f : α → Except String β) (l : List α)
    (h : ∃ x ∈ l, isError (f x) = true) :
    isError (mapExcept f l) = true := by
  induction l with
  | nil => simp at h
  | cons a l ih =>
    obtain ⟨x, hx, hex⟩ := h
    cases hfa : f a with
    | error e => simp [mapExcept, hfa, isError]
    | ok b =>
      rcases List.mem_cons.mp hx with rfl | hx
      · rw [hfa] at hex
        simp [isError] at hex
      · have hrest := ih ⟨x, hx, hex⟩
        cases hrec : mapExcept f l with
        | error e => simp [mapExcept, hfa, hrec, isError]
        | ok bs =>
          rw [hrec] at hrest
          simp [isError] at hrest

/-- Claim C9: a figure element whose required `id` attribute is missing
makes extraction fail for the whole document: `figure.get("id")` is
`None` and `.strip()` on it raises `AttributeError`, so
`grab_figure_data` returns an error — the figure is not silently
skipped and no record with an empty id is emitted. -/
theorem c9_missing_id_fatal (root : Node)
    (h : (figuresOf root).any (fun f => (attrGet f "id").isNone) = true) :
    isError (grab_figure_data root) = true := by
  unfold grab_figure_data
  apply mapExcept_error
  obtain ⟨f, hf, hnone⟩ := List.any_eq_true.mp h
  refine ⟨f, hf, ?_⟩
  cases hid : attrGet f "id" with
  | none => simp [recordOf, hid, isError]
  | some v =>
    rw [hid] at hnone
    simp at hnone

/-- Witness for claim C9: `c9Doc` contains a figure element without an
`id` attribute, and its extraction errors out. -/
theorem c9_missing_id_fatal_witness :
    (figuresOf c9Doc).any (fun f => (attrGet f "id").isNone) = true ∧
    isError (grab_figure_data c9Doc) = true :=
  ⟨by decide, c9_missing_id_fatal c9Doc (by decide)⟩

/-- Claim C5 (counterexample): a kept sentence that is the last sentence
of the document and whose trimmed text ends with `"Fig."` is not emitted
unchanged: `next_sentence` is the empty string and the loop still emits
`sentence.text + " " + next_sentence`, so the record carries a trailing
space. -/
theorem c5_counterexample :
    containsTerm c5LastSentence = true ∧
    endsWithFigDot c5LastSentence = true ∧
    grab_spacy_text [c5LastSentence] = [c5LastSentence ++ [' ']] ∧
    grab_spacy_text [c5LastSentence] ≠ [c5LastSentence] :=
  ⟨by decide, by decide, by decide, by decide⟩

/-- Claim C5 (amended): for every kept sentence whose trimmed text ends
with `"Fig."`: when a following sentence exists, the emitted record is
the sentence and the following sentence joined by a single space; when
the kept sentence is the last sentence, the record is the sentence
followed by a single trailing space (the join is still applied, with an
empty continuation).  The record produced by the loop body is among the
document's emitted records. -/
theorem c5_continuation_rule (ss : List Text) (i : Nat) (s : Text)
    (hget : ss[i]? = some s)
    (hkeep : containsTerm s = true) (hfig : endsWithFigDot s = true) :
    ((i + 1 < ss.length →
       sentRecord ss i s = some (s ++ ' ' :: ss.getD (i + 1) [])) ∧
     (¬ i + 1 < ss.length → sentRecord ss i s = some (s ++ [' ']))) ∧
    ∀ r, sentRecord ss i s = some r → r ∈ grab_spacy_text ss := by
  refine ⟨⟨?_, ?_⟩, ?_⟩
  · intro h
    simp [sentRecord, hkeep, hfig, h]
  · intro h
    simp [sentRecord, hkeep, hfig, h]
  · intro r hr
    unfold grab_spacy_text
    rw [List.mem_filterMap]
    exact ⟨(i, s), List.mk_mem_enum_iff_getElem?.mpr hget, hr⟩

/-- Witness for claim C5 on a two-sentence document whose first
sentence ends with `"Fig."`. -/
theorem c5_continuation_rule_witness :
    (c5Sentences[0]? = some "As shown in Fig.".toList ∧
     containsTerm "As shown in Fig.".toList = true ∧
     endsWithFigDot "As shown in Fig.".toList = true) ∧
    (0 + 1 < c5Sentences.length →
      sentRecord c5Sentences 0 "As shown in Fig.".toList =
        some ("As shown in Fig.".toList ++ ' ' :: c5Sentences.getD 1 [])) :=
  ⟨⟨by decide, by decide, by decide⟩,
   (c5_continuation_rule c5Sentences 0 "As shown in Fig.".toList
     (by decide) (by decide) (by decide)).1.1⟩

theorem mapExcept_ok_mem {α β : Type} (f : α → Except String β)
    (l : List α) (bs : List β) (h : mapExcept f l = Except.ok bs) :
    (∀ b ∈ bs, ∃ a ∈ l, f a = Except.ok b) ∧
    (∀ a ∈ l, ∃ b ∈ bs, f a = Except.ok b) := by
  induction l generalizing bs with
  | nil =>
    simp only [mapExcept, Except.ok.injEq] at h
    subst h
    simp
  | cons a l ih =>
    cases hfa : f a with
    | error e =>
      simp only [mapExcept, hfa] at h
      exact Except.noConfusion h
    | ok b =>
      cases hrec : mapExcept f l with
      | error e =>
        simp only [mapExcept, hfa, hrec] at h
        exact Except.noConfusion h
      | ok bs' =>
        simp only [mapExcept, hfa, hrec, Except.ok.injEq] at h
        subst h
        obtain ⟨ih1, ih2⟩ := ih bs' hrec
        constructor
        · intro x hx
          rcases List.mem_cons.mp hx with rfl | hx
          · exact ⟨a, by simp, hfa⟩
          · obtain ⟨a', ha', hfa'⟩ := ih1 x hx
            exact ⟨a', by simp [ha'], hfa'⟩
        · intro x hx
          rcases List.mem_cons.mp hx with rfl | hx
          · exact ⟨b, by simp, hfa⟩
          · obtain ⟨b', hb', hfb'⟩ := ih2 x hx
            exact ⟨b', by simp [hb'], hfb'⟩

theorem mapExcept_total {α β : Type} (f : α → Except String β)
    (l : List α) (h : ∀ a ∈ l, ∃ b, f a = Except.ok b) :
    ∃ bs, mapExcept f l = Except.ok bs := by
  induction l with
  | nil => exact ⟨[], rfl⟩
  | cons a l ih =>
    obtain ⟨b, hb⟩ := h a (by simp)
    obtain ⟨bs, hbs⟩ := ih (fun x hx => h x (by simp [hx]))
    exact ⟨b :: bs, by simp [mapExcept, hb, hbs]⟩

theorem rowsFor_shape (sents : List SentRow) (f : FigRow)
    (rs : List MergedRow) (hok : rowsFor sents f = Except.ok rs) :
    ∀ r ∈ rs, r = mergedOf f r.spacyText := by
  intro r hr
  cases hms : matchingRows sents f with
  | error e => simp [rowsFor, hms] at hok
  | ok ms =>
    simp only [rowsFor, hms, Except.ok.injEq] at hok
    subst hok
    by_cases hemp : ms.isEmpty
    · simp [hemp] at hr
      rw [hr]
      rfl
    · have hemp' : ms.isEmpty = false := by simpa using hemp
      simp [hemp'] at hr
      obtain ⟨s, hs, hrs⟩ := hr
      rw [← hrs]
      rfl

theorem rowsFor_ne_nil (sents : List SentRow) (f : FigRow)
    (rs : List MergedRow) (hok : rowsFor sents f = Except.ok rs) :
    rs ≠ [] := by
  cases hms : matchingRows sents f with
  | error e => simp [rowsFor, hms] at hok
  | ok ms =>
    simp only [rowsFor, hms, Except.ok.injEq] at hok
    subst hok
    by_cases hemp : ms.isEmpty
    · simp [hemp]
    · have hemp' : ms.isEmpty = false := by simpa using hemp
      have hnil : ms ≠ [] := by
        intro hc
        rw [hc] at hemp'
        simp at hemp'
      simp [hemp', hnil]

/-- Claim C6 (counterexample): the merger can drop every figure.  The
label of `c6BadFig` is `*`, an invalid regular expression, so
`str.contains` raises `re.error` ("nothing to repeat") while matching
it; the exception aborts the merge loop and no output row is produced —
not even for the well-behaved figure `c6Fig` in the same input. -/
theorem c6_counterexample :
    plainPattern c6BadFig.figureLabel = false ∧
    isError (combine_dataframes [c6Fig, c6BadFig] [c6NoMatchSent]) = true :=
  ⟨by decide, by decide⟩

/-- Claim C6 (amended): provided every figure row's id and label are
patterns the matcher accepts (in the modelled fragment: no regex
metacharacter other than `.`), the merge succeeds and never drops a
figure — every input figure row appears in the output at least once
with its figure columns intact, a figure with no matching sentence
contributes exactly one row whose sentence field is `None`, and a
figure with matching sentences contributes exactly one row per matching
sentence.  Without the proviso the merge can abort on an invalid
pattern and every figure is dropped (see the counterexample). -/
theorem c6_merger_never_drops_figure (figs : List FigRow)
    (sents : List SentRow) (f : FigRow)
    (hplain : ∀ g ∈ figs, plainPattern g.figureId = true ∧
      plainPattern g.figureLabel = true)
    (hf : f ∈ figs) :
    (∃ rows, combine_dataframes figs sents = Except.ok rows ∧
       ∃ r ∈ rows, r = mergedOf f r.spacyText) ∧
    (matchingRows sents f = Except.ok [] →
       rowsFor sents f = Except.ok [mergedOf f none]) ∧
    (∀ ms, matchingRows sents f = Except.ok ms →
       ∃ rs, rowsFor sents f = Except.ok rs ∧
         rs.length = max 1 ms.length) := by
  refine ⟨?_, fun hms => by simp [rowsFor, hms], ?_⟩
  · have hrows : ∀ g ∈ figs, ∃ rs, rowsFor sents g = Except.ok rs := by
      intro g hg
      obtain ⟨h1, h2⟩ := hplain g hg
      have hm : matchingRows sents g = Except.ok (sents.filter (fun s =>
          reSearch g.figureId s.sentence ||
            reSearch g.figureLabel s.sentence)) := by
        rw [matchingRows, if_pos (by simp [h1, h2])]
      cases hro : rowsFor sents g with
      | error e =>
        simp only [rowsFor, hm] at hro
        exact Except.noConfusion hro
      | ok rs => exact ⟨rs, rfl⟩
    obtain ⟨rss, hrss⟩ := mapExcept_total _ _ hrows
    obtain ⟨rs, hrsmem, hrsok⟩ := (mapExcept_ok_mem _ _ _ hrss).2 f hf
    obtain ⟨r, hr⟩ :=
      List.exists_mem_of_ne_nil _ (rowsFor_ne_nil sents f rs hrsok)
    refine ⟨rss.flatten, ?_, r, ?_,
      rowsFor_shape sents f rs hrsok r hr⟩
    · simp [combine_dataframes, hrss, Except.map]
    · exact List.mem_flatten.mpr ⟨rs, hrsmem, hr⟩
  · intro ms hms
    by_cases hemp : ms.isEmpty
    · have hnil : ms = [] := List.isEmpty_iff.mp hemp
      refine ⟨[mergedOf f none], ?_, ?_⟩
      · simp [rowsFor, hms, hnil]
      · simp [hnil]
    · have hemp' : ms.isEmpty = false := by simpa using hemp
      have hnil : ms ≠ [] := by
        intro hc
        rw [hc] at hemp'
        simp at hemp'
      have h1 : 1 ≤ ms.length := by
        have := List.length_pos.mpr hnil
        omega
      refine ⟨ms.map (fun s => mergedOf f (some s.sentence)), ?_, ?_⟩
      · simp [rowsFor, hms, hemp']
      · simp [Nat.max_eq_right h1]

/-- Witness for claim C6 on a one-figure, one-sentence corpus whose
patterns are metacharacter-free and where nothing matches. -/
theorem c6_merger_never_drops_figure_witness :
    ((∀ g ∈ [c6Fig], plainPattern g.figureId = true ∧
        plainPattern g.figureLabel = true) ∧ c6Fig ∈ [c6Fig]) ∧
    ((∃ rows, combine_dataframes [c6Fig] [c6NoMatchSent] = Except.ok rows ∧
        ∃ r ∈ rows, r = mergedOf c6Fig r.spacyText) ∧
     (matchingRows [c6NoMatchSent] c6Fig = Except.ok [] →
        rowsFor [c6NoMatchSent] c6Fig = Except.ok [mergedOf c6Fig none]) ∧
     (∀ ms, matchingRows [c6NoMatchSent] c6Fig = Except.ok ms →
        ∃ rs, rowsFor [c6NoMatchSent] c6Fig = Except.ok rs ∧
          rs.length = max 1 ms.length)) :=
  ⟨⟨by decide, by decide⟩,
   c6_merger_never_drops_figure [c6Fig] [c6NoMatchSent] c6Fig
     (by decide) (by decide)⟩

theorem reMatchHere_eq_isPrefixOf (pat : Text) (h : '.' ∉ pat) (s : Text) :
    reMatchHere pat s = pat.isPrefixOf s := by
  induction pat generalizing s with
  | nil => cases s <;> simp [reMatchHere, List.isPrefixOf]
  | cons p ps ih =>
    cases s with
    | nil => simp [reMatchHere, List.isPrefixOf]
    | cons c cs =>
      have hpd : (p == '.') = false := by
        have hne : p ≠ '.' := by
          intro he
          exact h (by simp [he])
        simpa using hne
      have h' : ('.' : Char) ∉ ps := fun hm => h (List.mem_cons_of_mem _ hm)
      simp [reMatchHere, List.isPrefixOf, hpd, ih h']

theorem reSearch_eq_infixSearch (pat : Text) (h : '.' ∉ pat) (s : Text) :
    reSearch pat s = infixSearch pat s := by
  induction s with
  | nil => simp [reSearch, infixSearch, reMatchHere_eq_isPrefixOf pat h]
  | cons c cs ih =>
    simp [reSearch, infixSearch, reMatchHere_eq_isPrefixOf pat h, ih]

/-- Claim C7 (counterexample): the merger's matching set is not the
literal-substring set with sentinel labels excluded.  A figure whose
label is the sentinel `"No figure label"` matches a sentence containing
that text, and a label containing `.` matches through the regex
wildcard a sentence that does not contain the label literally; in both
cases the claim's matching set is empty while the code's is not. -/
theorem c7_counterexample :
    (matchingRows [c7SentinelSent] c7SentinelFig =
       Except.ok [c7SentinelSent] ∧
     specMatchingRows [c7SentinelSent] c7SentinelFig = []) ∧
    (infixSearch c7DotFig.figureLabel c7DotSent.sentence = false ∧
     matchingRows [c7DotSent] c7DotFig = Except.ok [c7DotSent] ∧
     specMatchingRows [c7DotSent] c7DotFig = []) :=
  ⟨⟨rfl, by decide⟩, ⟨by decide, rfl, by decide⟩⟩

theorem plainPattern_of_noMeta (pat : Text)
    (h : pat.all (fun c => !regexMeta c) = true) :
    plainPattern pat = true := by
  rw [plainPattern, List.all_eq_true]
  rw [List.all_eq_true] at h
  intro c hc
  simp [h c hc]

theorem noMeta_dot_not_mem (pat : Text)
    (h : pat.all (fun c => !regexMeta c) = true) :
    ('.' : Char) ∉ pat := fun hmem =>
  absurd (List.all_eq_true.mp h '.' hmem) (by decide)

/-- Claim C7 (amended): the merger's matching set is computed by
regular-expression search, not literal substring containment, and no
label value — sentinel or otherwise — is excluded; since `str.contains`
compiles its pattern, an id or label that is not an acceptable pattern
aborts the merge instead of matching.  When the figure's id and label
contain no regex metacharacter at all, matching succeeds and coincides
with literal substring matching of either token (still with no sentinel
exclusion). -/
theorem c7_regex_matching (sents : List SentRow) (f : FigRow)
    (hid : f.figureId.all (fun c => !regexMeta c) = true)
    (hlab : f.figureLabel.all (fun c => !regexMeta c) = true) :
    matchingRows sents f = Except.ok (sents.filter (fun s =>
      infixSearch f.figureId s.sentence ||
        infixSearch f.figureLabel s.sentence)) := by
  have hplid := plainPattern_of_noMeta _ hid
  have hpllab := plainPattern_of_noMeta _ hlab
  rw [matchingRows, if_pos (by simp [hplid, hpllab])]
  congr 1
  apply List.filter_congr
  intro s _
  rw [reSearch_eq_infixSearch _ (noMeta_dot_not_mem _ hid),
    reSearch_eq_infixSearch _ (noMeta_dot_not_mem _ hlab)]

/-- Witness for claim C7 with a metacharacter-free id and label. -/
theorem c7_regex_matching_witness :
    (c6Fig.figureId.all (fun c => !regexMeta c) = true ∧
     c6Fig.figureLabel.all (fun c => !regexMeta c) = true) ∧
    matchingRows [c6NoMatchSent] c6Fig =
      Except.ok ([c6NoMatchSent].filter (fun s =>
        infixSearch c6Fig.figureId s.sentence ||
          infixSearch c6Fig.figureLabel s.sentence)) :=
  ⟨⟨by decide, by decide⟩,
   c7_regex_matching [c6NoMatchSent] c6Fig (by decide) (by decide)⟩

/-- Claim C10: every row the Correlation Merger emits carries the eight
figure columns of some input figure row byte for byte —
`row1.to_dict()` copies them unchanged and only the
`Spacy Extracted Text` field is added.  (A merge aborted by a bad
pattern emits no rows at all, so the property speaks about the rows of
a successful merge.) -/
theorem c10_figure_fields_copied (figs : List FigRow)
    (sents : List SentRow) (rows : List MergedRow) (r : MergedRow)
    (hok : combine_dataframes figs sents = Except.ok rows)
    (hr : r ∈ rows) :
    ∃ f ∈ figs,
      r.pmcId = f.pmcId ∧ r.figureId = f.figureId ∧
      r.figureLabel = f.figureLabel ∧
      r.associatedImage = f.associatedImage ∧
      r.sentencesBefore = f.sentencesBefore ∧
      r.sentencesAfter = f.sentencesAfter ∧
      r.captionTitle = f.captionTitle ∧
      r.captionText = f.captionText := by
  cases hm : mapExcept (rowsFor sents) figs with
  | error e => simp [combine_dataframes, hm, Except.map] at hok
  | ok rss =>
    simp only [combine_dataframes, hm, Except.map, Except.ok.injEq] at hok
    subst hok
    obtain ⟨rs, hrs, hrrs⟩ := List.mem_flatten.mp hr
    obtain ⟨f, hf, hfok⟩ := (mapExcept_ok_mem _ _ _ hm).1 rs hrs
    have hshape := rowsFor_shape sents f rs hfok r hrrs
    refine ⟨f, hf, ?_, ?_, ?_, ?_, ?_, ?_, ?_, ?_⟩ <;> rw [hshape] <;>
      simp [mergedOf]

/-- Witness for claim C10 on the no-match output row of a successful
merge. -/
theorem c10_figure_fields_copied_witness :
    (combine_dataframes [c6Fig] [c6NoMatchSent] =
       Except.ok [mergedOf c6Fig none] ∧
     mergedOf c6Fig none ∈ [mergedOf c6Fig none]) ∧
    ∃ f ∈ [c6Fig],
      (mergedOf c6Fig none).pmcId = f.pmcId ∧
      (mergedOf c6Fig none).figureId = f.figureId ∧
      (mergedOf c6Fig none).figureLabel = f.figureLabel ∧
      (mergedOf c6Fig none).associatedImage = f.associatedImage ∧
      (mergedOf c6Fig none).sentencesBefore = f.sentencesBefore ∧
      (mergedOf c6Fig none).sentencesAfter = f.sentencesAfter ∧
      (mergedOf c6Fig none).captionTitle = f.captionTitle ∧
      (mergedOf c6Fig none).captionText = f.captionText :=
  ⟨⟨rfl, by decide⟩,
   c10_figure_fields_copied [c6Fig] [c6NoMatchSent]
     [mergedOf c6Fig none] (mergedOf c6Fig none) rfl (by decide)⟩
